import Mathlib

/-!
# Verification of the listara todo application (`app.py`)

Shallow embedding of the list/item lifecycle engine of `app.py`:
the models `TodoList` / `TodoItem`, and the views `create_list`,
`list_detail`, `add_item`, `update_item`, `delete_item`.

Python strings are modelled as lists of characters (`PyStr`), so that
`str.strip`, `str.lower` and slicing are ordinary list operations.
Timestamps are integers (seconds); `timedelta(days=30)` is `30 * day`.
Items of a list are stored inside the list record, in creation order
(the model's `Meta.ordering = ['created_at']` with appends at the end),
so deleting a list cascades to its items by construction.
-/

/-- Python strings, as character lists. -/
abbrev PyStr := List Char

/-- Whitespace as recognised by Python's `str.strip()` on ASCII text. -/
def pyIsSpace (c : Char) : Bool :=
  c = ' ' || c = '\t' || c = '\n' || c = '\r' || c = '\x0b' || c = '\x0c'

/-- Python `str.strip()`: drop leading and trailing whitespace. -/
def pyStrip (s : PyStr) : PyStr :=
  ((s.dropWhile pyIsSpace).reverse.dropWhile pyIsSpace).reverse

/-- Python `str.lower()` (ASCII case folding, as used by the app's texts). -/
def pyLower (s : PyStr) : PyStr :=
  s.map Char.toLower

/-- The spec's normal form for duplicate comparison: trimmed then case-folded. -/
def normText (s : PyStr) : PyStr :=
  pyLower (pyStrip s)

/-- One second-granularity day, `timedelta(days=1)`. -/
def day : Int := 86400

/-- The model `TodoItem` (`id`, `text`, `created_at`, `updated_at`);
the owning list is the record that holds the item. -/
structure TodoItem where
  id : Nat
  text : PyStr
  created_at : Int
  updated_at : Int
  deriving Repr, DecidableEq

/-- The model `TodoList` (`id`, `name`, `created_at`, `updated_at`) together
with its items, kept in creation order. -/
structure TodoList where
  id : PyStr
  name : PyStr
  created_at : Int
  updated_at : Int
  items : List TodoItem
  deriving Repr, DecidableEq

/-- Outcome of the `add_item` view. -/
inductive AddResult where
  /-- `HttpResponse("")`: the text field was missing or empty. -/
  | empty : AddResult
  /-- The duplicate notice rendered into `#message-container`. -/
  | duplicate : AddResult
  /-- The rendered item fragment; the flag is true when the response carries
  `HX-Reswap: innerHTML`, i.e. when the empty-state placeholder is replaced. -/
  | created : Bool → AddResult
  deriving Repr, DecidableEq

/-- Outcome of the `delete_item` view. -/
inductive DeleteResult where
  /-- The empty-state fragment returned when no items remain. -/
  | emptyState : DeleteResult
  /-- `HttpResponse("")` when items remain. -/
  | emptyBody : DeleteResult
  deriving Repr, DecidableEq

/-- Outcome of the `create_list` view. -/
inductive CreateResult where
  /-- `HttpResponse("OK")`. -/
  | ok : CreateResult
  /-- `HttpResponse("")` when `name` or `list_id` is missing. -/
  | empty : CreateResult
  deriving Repr, DecidableEq

/-- The duplicate scan of `add_item`: some existing item's text equals the
stripped submitted text, case-insensitively (`existing_item.text.lower() ==
text_stripped.lower()`). -/
def duplicateExists (items : List TodoItem) (text_stripped : PyStr) : Bool :=
  items.any fun existing_item => pyLower existing_item.text == pyLower text_stripped

/-- Body of the `add_item` view once the list has been fetched: validate
`if text:`, scan for a duplicate, otherwise create the item with the stripped
text, refresh the list's `updated_at`, and flag the empty-state swap exactly
when the list now has a single item (`todo_list.items.count() == 1`). -/
def add_item (todo_list : TodoList) (text : PyStr) (new_id : Nat) (now : Int) :
    TodoList × AddResult :=
  if text = [] then (todo_list, .empty)
  else
    let text_stripped := pyStrip text
    if duplicateExists todo_list.items text_stripped then
      (todo_list, .duplicate)
    else
      let item : TodoItem :=
        { id := new_id, text := text_stripped, created_at := now, updated_at := now }
      let items' := todo_list.items ++ [item]
      let todo_list' := { todo_list with items := items', updated_at := now }
      (todo_list', .created (items'.length == 1))

/-- The `add_item` route: `get_object_or_404(TodoList, id=list_id)` raises
`NotFound` (`none`) when the list id is unknown; no lazy materialization. -/
def add_item_route (db : List TodoList) (list_id : PyStr) (text : PyStr)
    (new_id : Nat) (now : Int) : Option (List TodoList × AddResult) :=
  match db.find? (fun l => l.id == list_id) with
  | none => none
  | some todo_list =>
    let (todo_list', r) := add_item todo_list text new_id now
    some (db.map (fun l => if l.id == list_id then todo_list' else l), r)

/-- The `update_item` view: 404 when no item with this id is in the list;
`if text:` guards the write; on a write the item's text is set verbatim,
`item.save()` refreshes the item's `updated_at`, and
`item.todo_list.save(update_fields=['updated_at'])` refreshes the list's.
The returned item is the one rendered by `partials/todo_item.html`. -/
def update_item (todo_list : TodoList) (item_id : Nat) (text : PyStr) (now : Int) :
    Option (TodoList × TodoItem) :=
  match todo_list.items.find? (fun it => it.id == item_id) with
  | none => none
  | some item =>
    if text = [] then some (todo_list, item)
    else
      let item' := { item with text := text, updated_at := now }
      let items' := todo_list.items.map fun it => if it.id == item_id then item' else it
      some ({ todo_list with items := items', updated_at := now }, item')

/-- The `delete_item` view: 404 when no item with this id is in the list;
otherwise remove it, refresh the list's `updated_at`, and return the
empty-state fragment exactly when no items remain. -/
def delete_item (todo_list : TodoList) (item_id : Nat) (now : Int) :
    Option (TodoList × DeleteResult) :=
  match todo_list.items.find? (fun it => it.id == item_id) with
  | none => none
  | some _ =>
    let items' := todo_list.items.filter fun it => !(it.id == item_id)
    let todo_list' := { todo_list with items := items', updated_at := now }
    some (todo_list', if items' = [] then .emptyState else .emptyBody)

/-- The retention sweep at the top of `create_list`: delete every list with
`updated_at < timezone.now() - timedelta(days=30)`. -/
def sweepOldLists (db : List TodoList) (now : Int) : List TodoList :=
  db.filter fun l => !decide (l.updated_at < now - 30 * day)

/-- The `create_list` view (POST): sweep first, then — when both `name` and
`list_id` are non-empty — fetch the list by id and create it only when absent
(`TodoList.objects.create(id=list_id, name=name)`). -/
def create_list (db : List TodoList) (now : Int) (name : PyStr) (list_id : PyStr) :
    List TodoList × CreateResult :=
  let db' := sweepOldLists db now
  if name = [] ∨ list_id = [] then (db', .empty)
  else
    match db'.find? (fun l => l.id == list_id) with
    | some _ => (db', .ok)
    | none =>
      (db' ++ [{ id := list_id, name := name, created_at := now,
                 updated_at := now, items := [] }], .ok)

/-- The `list_detail` view: touch `updated_at` when the list exists, else
lazily create it with the fallback name `f"List {str(list_id)[:8]}"`.
Returns the new database and the list handed to the template. -/
def list_detail (db : List TodoList) (list_id : PyStr) (now : Int) :
    List TodoList × TodoList :=
  match db.find? (fun l => l.id == list_id) with
  | some todo_list =>
    let todo_list' := { todo_list with updated_at := now }
    (db.map (fun l => if l.id == list_id then todo_list' else l), todo_list')
  | none =>
    let todo_list : TodoList :=
      { id := list_id, name := "List ".data ++ list_id.take 8,
        created_at := now, updated_at := now, items := [] }
    (db ++ [todo_list], todo_list)

/-- Boolean form of the spec's item invariant: all pairwise distinct
trimmed, case-folded texts. -/
def noDupTexts : List PyStr → Bool
  | [] => true
  | t :: ts => (ts.all fun u => normText t != normText u) && noDupTexts ts

/-- Drop trailing characters satisfying `p` (the second half of `pyStrip`). -/
def dropTrailing (p : Char → Bool) (l : PyStr) : PyStr :=
  (l.reverse.dropWhile p).reverse

/-- A fresh list, as created with id `L1` and name `Groceries`. -/
def emptyList : TodoList :=
  { id := "L1".data, name := "Groceries".data, created_at := 0, updated_at := 0, items := [] }

/-- `emptyList` holding the single item `bread`. -/
def breadList : TodoList :=
  { emptyList with items := [{ id := 1, text := "bread".data, created_at := 0, updated_at := 0 }] }

/-- `emptyList` holding the single item `milk`. -/
def milkList : TodoList :=
  { emptyList with items := [{ id := 1, text := "milk".data, created_at := 0, updated_at := 0 }] }

/-- An item whose text carries surrounding whitespace, as an edit can produce. -/
def paddedMilkItem : TodoItem :=
  { id := 1, text := " milk ".data, created_at := 1, updated_at := 2 }

/-- The list obtained from `emptyList` by adding `milk` and editing it to `" milk "`. -/
def paddedMilkList : TodoList :=
  { emptyList with updated_at := 2, items := [paddedMilkItem] }

/-- An item with empty text, as produced by a whitespace-only add. -/
def emptyTextItem : TodoItem :=
  { id := 1, text := [], created_at := 5, updated_at := 5 }

/-- The list obtained from `emptyList` by submitting a whitespace-only add. -/
def emptyTextList : TodoList :=
  { emptyList with updated_at := 5, items := [emptyTextItem] }

/-- The item `" "` with refreshed timestamp, as stored by a whitespace-only edit. -/
def spacedItem : TodoItem :=
  { id := 1, text := " ".data, created_at := 0, updated_at := 9 }

/-- `milkList` after its item has been edited to the whitespace-only text `" "`. -/
def spacedList : TodoList :=
  { emptyList with updated_at := 9, items := [spacedItem] }

/-- A list holding the two items `milk` and `bread`. -/
def twoItemList : TodoList :=
  { emptyList with items := [{ id := 1, text := "milk".data, created_at := 0, updated_at := 0 }, { id := 2, text := "bread".data, created_at := 0, updated_at := 0 }] }

/-- `milkList` after `bread` is added at time 7. -/
def milkBreadList : TodoList :=
  { emptyList with updated_at := 7, items := [{ id := 1, text := "milk".data, created_at := 0, updated_at := 0 }, { id := 2, text := "bread".data, created_at := 7, updated_at := 7 }] }

/-- `milkList` after its only item is deleted at time 7. -/
def clearedMilkList : TodoList :=
  { emptyList with updated_at := 7, items := [] }

/-- A list last touched 31 days before the reference time `40 * day`. -/
def staleList : TodoList :=
  { id := "S".data, name := "Old".data, created_at := 0, updated_at := 9 * day, items := [] }

/-- A list last touched 29 days before the reference time `40 * day`. -/
def freshList : TodoList :=
  { id := "F".data, name := "New".data, created_at := 0, updated_at := 11 * day, items := [] }

/-! ## String-handling lemmas -/

lemma length_dropWhile_le (p : Char → Bool) (l : PyStr) :
    (l.dropWhile p).length ≤ l.length := by
  induction l with
  | nil => simp
  | cons a t ih =>
    rw [List.dropWhile_cons]
    split
    · exact Nat.le_trans ih (by simp)
    · simp

lemma dropWhile_idem (p : Char → Bool) (l : PyStr) :
    (l.dropWhile p).dropWhile p = l.dropWhile p := by
  induction l with
  | nil => rfl
  | cons a t ih =>
    by_cases h : p a = true
    · simp [List.dropWhile_cons, h, ih]
    · simp [List.dropWhile_cons, h]

lemma dropTrailing_idem (p : Char → Bool) (l : PyStr) :
    dropTrailing p (dropTrailing p l) = dropTrailing p l := by
  unfold dropTrailing
  rw [List.reverse_reverse, dropWhile_idem]

lemma dropWhile_dropTrailing (p : Char → Bool) (l : PyStr) (h : l.dropWhile p = l) :
    (dropTrailing p l).dropWhile p = dropTrailing p l := by
  cases l with
  | nil => rfl
  | cons a t =>
    have ha : p a = false := by
      cases hpa : p a
      · rfl
      · exfalso
        rw [List.dropWhile_cons, if_pos hpa] at h
        have hle := length_dropWhile_le p t
        rw [h] at hle
        simp at hle
    by_cases hd : (List.dropWhile p t.reverse).isEmpty = true
    · have key : dropTrailing p (a :: t) = [a] := by
        unfold dropTrailing
        rw [List.reverse_cons, List.dropWhile_append, if_pos hd]
        simp [List.dropWhile_cons, ha]
      rw [key]
      simp [List.dropWhile_cons, ha]
    · cases hu : List.dropWhile p t.reverse with
      | nil => rw [hu] at hd; simp at hd
      | cons b u =>
        have key : dropTrailing p (a :: t) = a :: (u.reverse ++ [b]) := by
          unfold dropTrailing
          rw [List.reverse_cons, List.dropWhile_append, if_neg hd, hu]
          simp [List.reverse_append]
        rw [key]
        simp [List.dropWhile_cons, ha]

lemma pyStrip_idem (s : PyStr) : pyStrip (pyStrip s) = pyStrip s := by
  have h1 : List.dropWhile pyIsSpace (List.dropWhile pyIsSpace s)
      = List.dropWhile pyIsSpace s := dropWhile_idem _ _
  calc pyStrip (pyStrip s)
      = dropTrailing pyIsSpace
          ((dropTrailing pyIsSpace (s.dropWhile pyIsSpace)).dropWhile pyIsSpace) := rfl
    _ = dropTrailing pyIsSpace (dropTrailing pyIsSpace (s.dropWhile pyIsSpace)) := by
        rw [dropWhile_dropTrailing _ _ h1]
    _ = dropTrailing pyIsSpace (s.dropWhile pyIsSpace) := dropTrailing_idem _ _
    _ = pyStrip s := rfl

lemma normText_pyStrip (s : PyStr) : normText (pyStrip s) = normText s := by
  unfold normText
  rw [pyStrip_idem]

lemma noDupTexts_append (xs : List PyStr) (t : PyStr) :
    noDupTexts (xs ++ [t])
      = (noDupTexts xs && xs.all fun u => normText u != normText t) := by
  induction xs with
  | nil => simp [noDupTexts]
  | cons x xs ih =>
    show noDupTexts (x :: (xs ++ [t])) = _
    rw [noDupTexts, ih, List.all_append]
    show _ = (((xs.all fun u => normText x != normText u) && noDupTexts xs)
      && ((normText x != normText t) && xs.all fun u => normText u != normText t))
    simp only [List.all_cons, List.all_nil, Bool.and_true]
    cases xs.all fun u => normText x != normText u <;>
      cases noDupTexts xs <;>
      cases normText x != normText t <;>
      cases xs.all (fun u => normText u != normText t) <;> rfl

lemma find?_append_none {α : Type} (p : α → Bool) (l1 l2 : List α)
    (h : l1.find? p = none) : (l1 ++ l2).find? p = l2.find? p := by
  induction l1 with
  | nil => simp
  | cons a t ih =>
    cases hpa : p a
    · have h' : t.find? p = none := by
        rwa [List.find?_cons_of_neg _ (by simp [hpa])] at h
      rw [List.cons_append, List.find?_cons_of_neg _ (by simp [hpa])]
      exact ih h'
    · exfalso
      rw [List.find?_cons_of_pos _ hpa] at h
      exact Option.some_ne_none a h

/-! ## C1: the trimmed, case-folded duplicate invariant after a successful add -/

/-- Claim C1 (counterexample): the invariant can be violated immediately after a
successful add. Starting from a fresh list, add `milk`, edit it to `" milk "`
(stored verbatim), then add `milk` again: the duplicate scan compares the
existing text un-trimmed (`" milk ".lower() != "milk"`), so the add succeeds
and the list then holds two items whose trimmed, case-folded texts agree. -/
theorem add_item_trim_invariant_counterexample :
    update_item (add_item emptyList "milk".data 1 1).1 1 " milk ".data 2
      = some (paddedMilkList, paddedMilkItem) ∧
    (add_item paddedMilkList "milk".data 2 3).2 = AddResult.created false ∧
    noDupTexts ((add_item paddedMilkList "milk".data 2 3).1.items.map TodoItem.text)
      = false := by
  decide

/-- Claim C1 (amended): after every successful add the invariant holds provided
every pre-existing item's text is already trimmed (no edit has introduced
surrounding whitespace) and the invariant held before the add. -/
theorem add_item_preserves_noDupTexts
    (l : TodoList) (text : PyStr) (new_id : Nat) (now : Int) (l' : TodoList) (b : Bool)
    (htrim : ∀ it ∈ l.items, pyStrip it.text = it.text)
    (hinv : noDupTexts (l.items.map TodoItem.text) = true)
    (hadd : add_item l text new_id now = (l', AddResult.created b)) :
    noDupTexts (l'.items.map TodoItem.text) = true := by
  simp only [add_item] at hadd
  by_cases h0 : text = []
  · rw [if_pos h0] at hadd
    simp at hadd
  rw [if_neg h0] at hadd
  by_cases hdup : duplicateExists l.items (pyStrip text) = true
  · rw [if_pos hdup] at hadd
    simp at hadd
  rw [if_neg hdup] at hadd
  simp only [Prod.mk.injEq] at hadd
  obtain ⟨hl', _⟩ := hadd
  rw [← hl']
  simp only [List.map_append, List.map_cons, List.map_nil]
  rw [noDupTexts_append, hinv, Bool.true_and, List.all_eq_true]
  intro u hu
  obtain ⟨it, hit, rfl⟩ := List.mem_map.mp hu
  rw [bne_iff_ne]
  have hnew : normText (pyStrip text) = pyLower (pyStrip text) := by
    unfold normText
    rw [pyStrip_idem]
  have hold : normText it.text = pyLower it.text := by
    unfold normText
    rw [htrim it hit]
  rw [hnew, hold]
  intro heq
  apply hdup
  unfold duplicateExists
  rw [List.any_eq_true]
  exact ⟨it, hit, by rw [heq]; exact beq_self_eq_true _⟩

/-- Claim C1 (witness): a concrete instance of the amended invariant theorem. -/
theorem add_item_preserves_noDupTexts_witness :
    noDupTexts ((add_item breadList " Milk ".data 2 5).1.items.map TodoItem.text) = true :=
  add_item_preserves_noDupTexts breadList " Milk ".data 2 5
    (add_item breadList " Milk ".data 2 5).1 false
    (by decide) (by decide) (by decide)

/-! ## C2: rejection of duplicate adds -/

/-- Claim C2 (counterexample): an add whose trimmed text matches an existing
item is not always answered with the duplicate notice. A whitespace-only add
leaves an item with empty text in the list; a subsequent add with empty text
has a (trivially) matching trimmed text, yet the view answers with the plain
empty response of the `if text:` validation, not the duplicate notice. -/
theorem add_item_duplicate_empty_text_counterexample :
    (∃ it ∈ (add_item emptyList " ".data 1 0).1.items,
        pyLower it.text = pyLower (pyStrip [])) ∧
    add_item (add_item emptyList " ".data 1 0).1 [] 2 1
      = ((add_item emptyList " ".data 1 0).1, AddResult.empty) ∧
    AddResult.empty ≠ AddResult.duplicate := by
  decide

/-- Claim C2 (amended): for every add with non-empty submitted text whose
trimmed text matches some existing item's text case-insensitively, the
creation is rejected with the duplicate notice, no row is created and the
list (in particular its `updated_at`) is left untouched. -/
theorem add_item_duplicate_rejected
    (l : TodoList) (text : PyStr) (new_id : Nat) (now : Int)
    (h0 : text ≠ [])
    (hdup : ∃ it ∈ l.items, pyLower it.text = pyLower (pyStrip text)) :
    add_item l text new_id now = (l, AddResult.duplicate) := by
  simp only [add_item]
  rw [if_neg h0]
  have hd : duplicateExists l.items (pyStrip text) = true := by
    unfold duplicateExists
    rw [List.any_eq_true]
    obtain ⟨it, hit, heq⟩ := hdup
    exact ⟨it, hit, by rw [heq]; exact beq_self_eq_true _⟩
  rw [if_pos hd]

/-- Claim C2 (witness): adding `MILK ` to a list holding `milk` is rejected. -/
theorem add_item_duplicate_rejected_witness :
    add_item milkList "MILK ".data 7 9 = (milkList, AddResult.duplicate) :=
  add_item_duplicate_rejected milkList "MILK ".data 7 9 (by decide)
    ⟨{ id := 1, text := "milk".data, created_at := 0, updated_at := 0 },
     by decide, by decide⟩

/-! ## C3: lazy materialization of unknown list identifiers -/

/-- Replacing the list matching `list_id` in a database that holds no such
list is a no-op. Helper for the `list_detail` and `create_list` proofs. -/
lemma map_replace_of_not_mem (db : List TodoList) (list_id : PyStr) (x : TodoList)
    (h : ∀ l ∈ db, l.id ≠ list_id) :
    db.map (fun l => if l.id == list_id then x else l) = db := by
  induction db with
  | nil => rfl
  | cons a t ih =>
    simp only [List.map_cons]
    rw [if_neg (by simp [h a (List.mem_cons_self a t)]),
      ih fun l hl => h l (List.mem_cons_of_mem a hl)]

/-- Claim C3 (counterexample): the fallback name of a lazily materialized list
is not the first 8 characters of the identifier; it is `List ` followed by
those characters (`f"List {str(list_id)[:8]}"`). -/
theorem list_detail_fallback_name_counterexample :
    (list_detail [] "123e4567-e89b-12d3-a456-426614174000".data 0).2.name
      = "List 123e4567".data ∧
    (list_detail [] "123e4567-e89b-12d3-a456-426614174000".data 0).2.name
      ≠ ("123e4567-e89b-12d3-a456-426614174000".data).take 8 := by
  decide

/-- Claim C3 (amended): a GET of an unknown list identifier materializes the
list with the fallback name `List ` ++ first 8 characters of the identifier,
appending exactly one row; a second visit neither re-creates nor renames the
list — the database keeps the single row, only with `updated_at` refreshed. -/
theorem list_detail_lazy_materialization
    (db : List TodoList) (list_id : PyStr) (t1 t2 : Int)
    (h : ∀ l ∈ db, l.id ≠ list_id) :
    (list_detail db list_id t1).2.name = "List ".data ++ list_id.take 8 ∧
    (list_detail db list_id t1).2.id = list_id ∧
    (list_detail db list_id t1).1 = db ++ [(list_detail db list_id t1).2] ∧
    (list_detail (list_detail db list_id t1).1 list_id t2).2
      = { (list_detail db list_id t1).2 with updated_at := t2 } ∧
    (list_detail (list_detail db list_id t1).1 list_id t2).1
      = db ++ [{ (list_detail db list_id t1).2 with updated_at := t2 }] := by
  have hfind : db.find? (fun l => l.id == list_id) = none :=
    List.find?_eq_none.mpr fun x hx => by simp [h x hx]
  have e1 : list_detail db list_id t1
      = (db ++ [⟨list_id, "List ".data ++ list_id.take 8, t1, t1, []⟩],
         ⟨list_id, "List ".data ++ list_id.take 8, t1, t1, []⟩) := by
    unfold list_detail
    rw [hfind]
  have hfind2 : (db ++ [(⟨list_id, "List ".data ++ list_id.take 8, t1, t1, []⟩ : TodoList)]).find?
      (fun l => l.id == list_id) = some ⟨list_id, "List ".data ++ list_id.take 8, t1, t1, []⟩ := by
    rw [find?_append_none _ _ _ hfind, List.find?_cons_of_pos _ (by simp)]
  have e2 : list_detail (db ++ [(⟨list_id, "List ".data ++ list_id.take 8, t1, t1, []⟩ : TodoList)]) list_id t2
      = ((db ++ [(⟨list_id, "List ".data ++ list_id.take 8, t1, t1, []⟩ : TodoList)]).map
           (fun l => if l.id == list_id then ⟨list_id, "List ".data ++ list_id.take 8, t1, t2, []⟩ else l),
         ⟨list_id, "List ".data ++ list_id.take 8, t1, t2, []⟩) := by
    unfold list_detail
    rw [hfind2]
  have e3 : (db ++ [(⟨list_id, "List ".data ++ list_id.take 8, t1, t1, []⟩ : TodoList)]).map
        (fun l => if l.id == list_id then (⟨list_id, "List ".data ++ list_id.take 8, t1, t2, []⟩ : TodoList) else l)
      = db ++ [⟨list_id, "List ".data ++ list_id.take 8, t1, t2, []⟩] := by
    rw [List.map_append, map_replace_of_not_mem db list_id _ h]
    simp
  rw [e1]
  simp only [Prod.fst, Prod.snd] at *
  rw [e2, e3]
  simp

/-- Claim C3 (witness): materializing and revisiting a concrete identifier. -/
theorem list_detail_lazy_materialization_witness :
    (list_detail [] "123e4567-e89b-12d3-a456-426614174000".data 3).2.name
      = "List ".data ++ ("123e4567-e89b-12d3-a456-426614174000".data).take 8 :=
  (list_detail_lazy_materialization [] "123e4567-e89b-12d3-a456-426614174000".data 3 7
    (by decide)).1

/-! ## C4: the retention sweep on create-list requests -/

/-- Membership in the swept database: kept exactly when not stale. -/
lemma mem_sweepOldLists (db : List TodoList) (now : Int) (x : TodoList) :
    x ∈ sweepOldLists db now ↔ x ∈ db ∧ ¬ x.updated_at < now - 30 * day := by
  unfold sweepOldLists
  rw [List.mem_filter]
  simp

/-- Claim C4: every create-list request first deletes every list whose
`updated_at` lies strictly more than 30 days in the past, and keeps every
other list. Items are stored inside the list record, so deleting the row
deletes its items with it (the cascade). -/
theorem create_list_sweeps_stale
    (db : List TodoList) (now : Int) (name list_id : PyStr) (l : TodoList)
    (hmem : l ∈ db) :
    (l.updated_at < now - 30 * day → l ∉ (create_list db now name list_id).1) ∧
    (¬ l.updated_at < now - 30 * day → l ∈ (create_list db now name list_id).1) := by
  have hshape : (create_list db now name list_id).1 = sweepOldLists db now ∨
      (create_list db now name list_id).1
        = sweepOldLists db now ++ [⟨list_id, name, now, now, []⟩] := by
    simp only [create_list]
    by_cases hc : name = [] ∨ list_id = []
    · rw [if_pos hc]
      left
      rfl
    · rw [if_neg hc]
      cases hf : (sweepOldLists db now).find? (fun l => l.id == list_id) with
      | some x =>
        left
        rfl
      | none =>
        right
        rfl
  constructor
  · intro hstale hmem'
    rcases hshape with he | he <;> rw [he] at hmem'
    · exact ((mem_sweepOldLists db now l).mp hmem').2 hstale
    · rcases List.mem_append.mp hmem' with hin | hin
      · exact ((mem_sweepOldLists db now l).mp hin).2 hstale
      · have hl : l = ⟨list_id, name, now, now, []⟩ := by simpa using hin
        rw [hl] at hstale
        simp only [day] at hstale
        omega
  · intro hfresh
    have hin : l ∈ sweepOldLists db now := (mem_sweepOldLists db now l).mpr ⟨hmem, hfresh⟩
    rcases hshape with he | he <;> rw [he]
    · exact hin
    · exact List.mem_append.mpr (Or.inl hin)

/-- Claim C4 (witness): at time `40 * day`, a list 31 days stale is deleted by
the next create-list request and a list 29 days stale survives it. -/
theorem create_list_sweeps_stale_witness :
    staleList ∉ (create_list [staleList, freshList] (40 * day) "N".data "X".data).1 ∧
    freshList ∈ (create_list [staleList, freshList] (40 * day) "N".data "X".data).1 :=
  ⟨(create_list_sweeps_stale [staleList, freshList] (40 * day) "N".data "X".data
      staleList (by decide)).1 (by decide),
   (create_list_sweeps_stale [staleList, freshList] (40 * day) "N".data "X".data
      freshList (by decide)).2 (by decide)⟩

/-! ## C5: NotFound policy of list lookups -/

/-- The add-item route answers NotFound exactly when the strict list lookup
comes back empty. -/
lemma add_item_route_eq_none_iff
    (db : List TodoList) (list_id text : PyStr) (new_id : Nat) (now : Int) :
    add_item_route db list_id text new_id now = none
      ↔ db.find? (fun l => l.id == list_id) = none := by
  unfold add_item_route
  cases hf : db.find? (fun l => l.id == list_id) with
  | none => simp
  | some x =>
    show (match add_item x text new_id now with
      | (todo_list', r) =>
        some (db.map (fun l => if l.id == list_id then todo_list' else l), r)) = none
      ↔ some x = none
    rcases hadd : add_item x text new_id now with ⟨a, b⟩
    simp

/-- Claim C5 (counterexample): an add-item request addressed to a list
identifier unknown to the persistence layer does fail with NotFound
(`get_object_or_404`); it is not lazily materialized. -/
theorem add_item_route_notfound_counterexample :
    add_item_route [emptyList] "ZZ".data "milk".data 1 0 = none := by
  decide

/-- Claim C5 (amended): only the list detail view lazily materializes unknown
list identifiers and thus never yields NotFound; the add-item route raises
NotFound exactly when no list in the database has the addressed identifier. -/
theorem list_lookup_notfound_policy
    (db : List TodoList) (list_id text : PyStr) (new_id : Nat) (now : Int) :
    (add_item_route db list_id text new_id now = none ↔ ∀ l ∈ db, l.id ≠ list_id) ∧
    (list_detail db list_id now).2.id = list_id := by
  constructor
  · rw [add_item_route_eq_none_iff, List.find?_eq_none]
    simp
  · unfold list_detail
    cases hf : db.find? (fun l => l.id == list_id) with
    | none => rfl
    | some x =>
      have hx : x.id = list_id := by simpa using List.find?_some hf
      exact hx

/-- Claim C5 (witness): the policy at a concrete database and identifier. -/
theorem list_lookup_notfound_policy_witness :
    (add_item_route [emptyList] "ZZ".data "x".data 1 0 = none
      ↔ ∀ l ∈ [emptyList], l.id ≠ "ZZ".data) ∧
    (list_detail [emptyList] "ZZ".data 0).2.id = "ZZ".data :=
  list_lookup_notfound_policy [emptyList] "ZZ".data "x".data 1 0

/-! ## C6: validation of empty submitted text on add -/

/-- Claim C6 (counterexample): a whitespace-only submission is not rejected.
`if text:` only tests the raw text, so `" "` passes, its trimmed form is
empty, and an item with empty text is created while the list's `updated_at`
is refreshed. -/
theorem add_item_whitespace_only_counterexample :
    pyStrip " ".data = [] ∧
    add_item emptyList " ".data 1 5 = (emptyTextList, AddResult.created true) ∧
    emptyTextList ≠ emptyList := by
  decide

/-- Claim C6 (amended): the add validation rejects exactly the submissions
whose text is empty before trimming — then no item is created and the list is
left unchanged; whitespace-only text passes the validation. -/
theorem add_item_empty_text_validation
    (l : TodoList) (text : PyStr) (new_id : Nat) (now : Int) :
    (text = [] → add_item l text new_id now = (l, AddResult.empty)) ∧
    ((add_item l text new_id now).2 = AddResult.empty ↔ text = []) := by
  constructor
  · intro h0
    simp only [add_item]
    rw [if_pos h0]
  · constructor
    · intro hres
      by_contra h0
      simp only [add_item] at hres
      rw [if_neg h0] at hres
      by_cases hdup : duplicateExists l.items (pyStrip text) = true
      · rw [if_pos hdup] at hres
        simp at hres
      · rw [if_neg hdup] at hres
        simp at hres
    · intro h0
      simp only [add_item]
      rw [if_pos h0]

/-- Claim C6 (witness): an empty submission leaves a concrete list unchanged. -/
theorem add_item_empty_text_validation_witness :
    add_item milkList [] 1 5 = (milkList, AddResult.empty) :=
  (add_item_empty_text_validation milkList [] 1 5).1 rfl

/-! ## C7: edit-commit behavior -/

/-- Claim C7 (counterexample): the edit-commit does not validate non-empty
trimmed text. The whitespace-only value `" "` trims to empty, yet the commit
succeeds: the item's text becomes `" "` and both timestamps are refreshed. -/
theorem update_item_whitespace_commit_counterexample :
    pyStrip " ".data = [] ∧
    update_item milkList 1 " ".data 9 = some (spacedList, spacedItem) := by
  decide

/-- Claim C7 (amended): for every edit-commit whose raw submitted text is
non-empty (only `if text:` is checked, so whitespace-only passes), the commit
persists the text change verbatim, refreshes the item's `updated_at` and the
owning list's `updated_at`, and returns the rendered item. No duplicate check
is involved: the result holds with no hypothesis about the other items. -/
theorem update_item_commit_behavior
    (l : TodoList) (item_id : Nat) (text : PyStr) (now : Int) (item : TodoItem)
    (hfind : l.items.find? (fun it => it.id == item_id) = some item)
    (h0 : text ≠ []) :
    update_item l item_id text now
      = some ({ l with
                  updated_at := now,
                  items := l.items.map fun it =>
                    if it.id == item_id
                    then { item with text := text, updated_at := now } else it },
              { item with text := text, updated_at := now }) := by
  simp only [update_item, hfind]
  rw [if_neg h0]

/-- Claim C7 (witness): editing `bread` to `milk` commits although the list
already holds an item `milk` — duplicates are not re-checked on edit. -/
theorem update_item_commit_behavior_witness :
    update_item twoItemList 2 "milk".data 9
      = some ({ twoItemList with
                  updated_at := 9,
                  items := twoItemList.items.map fun it =>
                    if it.id == 2
                    then { id := 2, text := "milk".data, created_at := 0, updated_at := 9 }
                    else it },
              { id := 2, text := "milk".data, created_at := 0, updated_at := 9 }) :=
  update_item_commit_behavior twoItemList 2 "milk".data 9
    { id := 2, text := "bread".data, created_at := 0, updated_at := 0 }
    (by decide) (by decide)

/-! ## C8: empty-state directives at the boundary -/

/-- Claim C8: a successful add carries the remove-empty-state directive
exactly when the list was empty before (the created item is its first), and a
delete answers with the empty-state fragment exactly when no items remain. -/
theorem empty_state_directives
    (l : TodoList) (text : PyStr) (new_id item_id : Nat) (now : Int)
    (l' l2 : TodoList) (b : Bool) (r : DeleteResult) :
    (add_item l text new_id now = (l', AddResult.created b) → (b = true ↔ l.items = [])) ∧
    (delete_item l item_id now = some (l2, r) → (r = DeleteResult.emptyState ↔ l2.items = [])) := by
  constructor
  · intro hadd
    simp only [add_item] at hadd
    by_cases h0 : text = []
    · rw [if_pos h0] at hadd
      simp at hadd
    rw [if_neg h0] at hadd
    by_cases hdup : duplicateExists l.items (pyStrip text) = true
    · rw [if_pos hdup] at hadd
      simp at hadd
    rw [if_neg hdup] at hadd
    simp only [Prod.mk.injEq, AddResult.created.injEq] at hadd
    obtain ⟨_, hb⟩ := hadd
    rw [← hb]
    simp [List.length_append, List.length_eq_zero]
  · intro hdel
    simp only [delete_item] at hdel
    cases hf : l.items.find? (fun it => it.id == item_id) with
    | none =>
      rw [hf] at hdel
      simp at hdel
    | some x =>
      rw [hf] at hdel
      simp only [Option.some.injEq, Prod.mk.injEq] at hdel
      obtain ⟨hl2, hr⟩ := hdel
      rw [← hr, ← hl2]
      by_cases he : (l.items.filter fun it => !(it.id == item_id)) = []
      · rw [if_pos he]
        simp [he]
      · rw [if_neg he]
        simp [he]

/-- Claim C8 (witness): adding to a non-empty list does not signal the
empty-state swap; deleting the last item does signal the empty state. -/
theorem empty_state_directives_witness :
    ((false = true) ↔ (milkList.items = [])) ∧
    ((DeleteResult.emptyState = DeleteResult.emptyState) ↔ (clearedMilkList.items = [])) :=
  ⟨(empty_state_directives milkList "bread".data 2 1 7 milkBreadList clearedMilkList
      false DeleteResult.emptyState).1 (by decide),
   (empty_state_directives milkList "bread".data 2 1 7 milkBreadList clearedMilkList
      false DeleteResult.emptyState).2 (by decide)⟩

/-! ## C9: idempotence of create-list -/

/-- Claim C9 (counterexample): issued twice with the same id across the
30-day retention window, create-list does rename. The second request's sweep
deletes the list made at time 0 (31 days stale) and re-creates it under the
new name, so the surviving row's name comes from the second write. -/
theorem create_list_idempotence_counterexample :
    (create_list (create_list [] 0 "A".data "L1".data).1 (31 * day) "B".data "L1".data).1
      = [⟨"L1".data, "B".data, 31 * day, 31 * day, []⟩] ∧
    ("B".data : PyStr) ≠ "A".data := by
  decide

/-- Claim C9 (amended): create-list is idempotent as long as the repeat
arrives within the retention window: for a valid (name, id) pair unknown to
the database, issuing the request again (with any valid name) at most 30 days
later leaves exactly one row for that id, carrying the first write's name and
timestamps. Beyond the window the sweep deletes the row and the repeat
re-creates it under the new name. -/
theorem create_list_idempotent_within_window
    (db : List TodoList) (name1 name2 list_id : PyStr) (t1 t2 : Int)
    (h1 : name1 ≠ []) (h2 : name2 ≠ []) (h3 : list_id ≠ [])
    (hdb : ∀ l ∈ db, l.id ≠ list_id)
    (hwin : ¬ t1 < t2 - 30 * day) :
    ((create_list (create_list db t1 name1 list_id).1 t2 name2 list_id).1).filter
        (fun l => l.id == list_id)
      = [⟨list_id, name1, t1, t1, []⟩] := by
  have hnc1 : ¬ (name1 = [] ∨ list_id = []) := by simp [h1, h3]
  have hnc2 : ¬ (name2 = [] ∨ list_id = []) := by simp [h2, h3]
  have hsw1 : ∀ x ∈ sweepOldLists db t1, x.id ≠ list_id :=
    fun x hx => hdb x (List.mem_of_mem_filter hx)
  have hfind1 : (sweepOldLists db t1).find? (fun l => l.id == list_id) = none :=
    List.find?_eq_none.mpr fun x hx => by simp [hsw1 x hx]
  have e1 : (create_list db t1 name1 list_id).1
      = sweepOldLists db t1 ++ [⟨list_id, name1, t1, t1, []⟩] := by
    simp only [create_list, hfind1]
    rw [if_neg hnc1]
  have e2 : sweepOldLists (sweepOldLists db t1 ++ [⟨list_id, name1, t1, t1, []⟩]) t2
      = sweepOldLists (sweepOldLists db t1) t2 ++ [⟨list_id, name1, t1, t1, []⟩] := by
    unfold sweepOldLists
    rw [List.filter_append]
    congr 1
    simp [hwin]
  have hsw2 : ∀ x ∈ sweepOldLists (sweepOldLists db t1) t2, x.id ≠ list_id :=
    fun x hx => hsw1 x (List.mem_of_mem_filter hx)
  have hfind2 : (sweepOldLists (sweepOldLists db t1 ++ [⟨list_id, name1, t1, t1, []⟩]) t2).find?
      (fun l => l.id == list_id) = some ⟨list_id, name1, t1, t1, []⟩ := by
    rw [e2, find?_append_none _ _ _ (List.find?_eq_none.mpr fun x hx => by simp [hsw2 x hx]),
      List.find?_cons_of_pos _ (by simp)]
  have e3 : (create_list (sweepOldLists db t1 ++ [⟨list_id, name1, t1, t1, []⟩]) t2
        name2 list_id).1
      = sweepOldLists (sweepOldLists db t1 ++ [⟨list_id, name1, t1, t1, []⟩]) t2 := by
    simp only [create_list, hfind2]
    rw [if_neg hnc2]
  rw [e1, e3, e2, List.filter_append]
  have hnil : (sweepOldLists (sweepOldLists db t1) t2).filter (fun l => l.id == list_id)
      = [] := by
    rw [List.filter_eq_nil_iff]
    exact fun x hx => by simp [hsw2 x hx]
  rw [hnil]
  simp

/-- Claim C9 (witness): a repeat exactly at the window edge keeps one row and
the first name. -/
theorem create_list_idempotent_within_window_witness :
    ((create_list (create_list [] 0 "A".data "L1".data).1 (30 * day) "B".data "L1".data).1).filter
        (fun l => l.id == "L1".data)
      = [⟨"L1".data, "A".data, 0, 0, []⟩] :=
  create_list_idempotent_within_window [] "A".data "B".data "L1".data 0 (30 * day)
    (by decide) (by decide) (by decide) (by decide) (by decide)

/-! ## C10: edits store the submitted text verbatim -/

/-- Claim C10: an edit-commit with non-empty text persists the submitted text
verbatim — surrounding whitespace included — in contrast with add, which
stores the trimmed text. -/
theorem update_item_stores_verbatim
    (l : TodoList) (item_id : Nat) (text : PyStr) (now : Int) (item : TodoItem)
    (hfind : l.items.find? (fun it => it.id == item_id) = some item)
    (h0 : text ≠ []) :
    (∃ l' item', update_item l item_id text now = some (l', item') ∧
      item'.text = text ∧ item' ∈ l'.items) ∧
    (∀ (new_id : Nat) (l2 : TodoList) (b : Bool),
      add_item l text new_id now = (l2, AddResult.created b) →
      l2.items.map TodoItem.text = l.items.map TodoItem.text ++ [pyStrip text]) := by
  constructor
  · refine ⟨{ l with
                updated_at := now,
                items := l.items.map fun it =>
                  if it.id == item_id
                  then { item with text := text, updated_at := now } else it },
            { item with text := text, updated_at := now }, ?_, rfl, ?_⟩
    · simp only [update_item, hfind]
      rw [if_neg h0]
    · have hmem := List.mem_of_find?_eq_some hfind
      have hid : (item.id == item_id) = true := by
        simpa using List.find?_some hfind
      have hmap := List.mem_map_of_mem
        (fun it => if it.id == item_id
          then { item with text := text, updated_at := now } else it) hmem
      simp only [hid, if_true] at hmap
      exact hmap
  · intro new_id l2 b hadd
    simp only [add_item] at hadd
    rw [if_neg h0] at hadd
    by_cases hdup : duplicateExists l.items (pyStrip text) = true
    · rw [if_pos hdup] at hadd
      simp at hadd
    rw [if_neg hdup] at hadd
    simp only [Prod.mk.injEq] at hadd
    obtain ⟨hl2, _⟩ := hadd
    rw [← hl2]
    simp

/-- Claim C10 (witness): editing `bread` to `" Milk "` stores the padded text
as submitted, while adding `" Milk "` to the same list stores `Milk`. -/
theorem update_item_stores_verbatim_witness :
    (∃ l' item', update_item breadList 1 " Milk ".data 9 = some (l', item') ∧
      item'.text = " Milk ".data ∧ item' ∈ l'.items) ∧
    ((add_item breadList " Milk ".data 7 9).1.items.map TodoItem.text
      = breadList.items.map TodoItem.text ++ [pyStrip " Milk ".data]) := by
  have h := update_item_stores_verbatim breadList 1 " Milk ".data 9
    { id := 1, text := "bread".data, created_at := 0, updated_at := 0 }
    (by decide) (by decide)
  exact ⟨h.1, h.2 7 (add_item breadList " Milk ".data 7 9).1 false (by decide)⟩
